import Mathlib

/-!
# go-movies-crud: the handlers of `main.go` over the in-memory collection

The five HTTP handlers of `main.go` read and write one package-level slice
`movies`.  Each handler is embedded as a pure function from the collection
before the request (and the request's inputs) to the collection after it and
the value handed to `json.NewEncoder(w).Encode`.

Library calls are handled as follows.

* `mux.Vars(r)["id"]` is the `id` argument of the handler.
* `json.NewDecoder(r.Body).Decode(&movie)` is a parameter `decode`: from the
  request body and the current value of the target variable it gives the value
  stored in the variable and whether the returned error is non-nil.  Every
  handler discards the error (`_ = ...`).
* `rand.Intn(10000000)` is an argument `r`, the number drawn;
  `strconv.Itoa` is decimal rendering (`Itoa`).
* A Go slice is a `List`; `append(movies[:index], movies[index+1:]...)` is
  `movies.take index ++ movies.drop (index + 1)`.  The old slice header is never
  read again after a splice (the loops `break` or `return`), so the sharing of
  the backing array is not observable.
-/

namespace GoMoviesCrud

/-- The struct `Director` of `main.go`. -/
structure Director where
  Firstname : String
  Lastname : String
deriving DecidableEq

/-- The struct `Movie` of `main.go`; the pointer field `*Director` is an
`Option`, with `nil` as `none`. -/
structure Movie where
  ID : String
  Isbn : String
  Title : String
  Director : Option Director
deriving DecidableEq

/-- The zero value `Movie{}`, also the initial value of `var movie Movie`. -/
def Movie.zero : Movie := ⟨"", "", "", none⟩

/-- What a handler writes: the `Content-Type` header it sets, the status, and
the value it passes to `Encode`. -/
structure Response (β : Type) where
  contentType : String
  status : Nat
  body : β

/-- No handler calls `w.WriteHeader`, so `net/http` answers `200 OK` when the
encoder first writes to `w`. -/
def statusOK : Nat := 200

/-- The behaviour of `json.NewDecoder(r.Body).Decode(&movie)`: from the body
and the current value of `movie` to the value left in `movie` and whether the
error is non-nil. -/
abbrev Decoder := String → Movie → Movie × Bool

/-- Decimal rendering `strconv.Itoa` of a non-negative integer, as drawn by
`rand.Intn`. -/
def Itoa (i : Nat) : String := Nat.repr i

/-- The collection when `main` starts serving: two appends to the empty
slice. -/
def main : List Movie :=
  let movies : List Movie := []
  let movies := movies ++ [⟨"1", "438227", "Movie One", some ⟨"John", "Doe"⟩⟩]
  let movies := movies ++ [⟨"2", "45455", "Movie Two", some ⟨"Steve", "Smith"⟩⟩]
  movies

/-- Handler `getMovies`: encode the whole collection. -/
def getMovies (movies : List Movie) : List Movie × Response (List Movie) :=
  (movies, ⟨"application/json", statusOK, movies⟩)

/-- The loop `for index, item := range movies` of `deleteMovie`.  The last
argument is the part of the ranged slice not yet visited, `index` the position
of its head; the result is the new value of `movies`. -/
def deleteMovie.loop (id : String) (movies : List Movie) : Nat → List Movie → List Movie
  | _, [] => movies
  | index, item :: rest =>
    if item.ID = id then
      movies.take index ++ movies.drop (index + 1)
    else
      deleteMovie.loop id movies (index + 1) rest

/-- Handler `deleteMovie`: splice out the first record with the id, then
encode the collection. -/
def deleteMovie (movies : List Movie) (id : String) : List Movie × Response (List Movie) :=
  let movies := deleteMovie.loop id movies 0 movies
  (movies, ⟨"application/json", statusOK, movies⟩)

/-- The loop of `getMovie`: `some item` when the loop body encodes `item` and
returns, `none` when the loop runs to its end. -/
def getMovie.loop (id : String) : List Movie → Option Movie
  | [] => none
  | item :: rest =>
    if item.ID = id then some item else getMovie.loop id rest

/-- Handler `getMovie`: encode the record found by the loop, else `&Movie{}`. -/
def getMovie (movies : List Movie) (id : String) : List Movie × Response Movie :=
  match getMovie.loop id movies with
  | some item => (movies, ⟨"application/json", statusOK, item⟩)
  | none => (movies, ⟨"application/json", statusOK, Movie.zero⟩)

/-- Handler `createMovie`: decode into a fresh variable, overwrite the id with
the rendered draw, append, encode the record. -/
def createMovie (decode : Decoder) (movies : List Movie) (body : String) (r : Nat) :
    List Movie × Response Movie :=
  let movie := Movie.zero
  let movie := (decode body movie).1
  let movie := { movie with ID := Itoa r }
  let movies := movies ++ [movie]
  (movies, ⟨"application/json", statusOK, movie⟩)

/-- The loop of `updateMovie`: `some (movies, movie)` when a record matches
(the new collection and the record encoded before `return`), `none` when the
loop runs to its end. -/
def updateMovie.loop (decode : Decoder) (id body : String) (movies : List Movie) :
    Nat → List Movie → Option (List Movie × Movie)
  | _, [] => none
  | index, item :: rest =>
    if item.ID = id then
      let movies := movies.take index ++ movies.drop (index + 1)
      let movie := Movie.zero
      let movie := (decode body movie).1
      let movie := { movie with ID := id }
      let movies := movies ++ [movie]
      some (movies, movie)
    else
      updateMovie.loop decode id body movies (index + 1) rest

/-- Handler `updateMovie`: on a match the loop's record is encoded, else
`&Movie{}` and the collection is left as it was. -/
def updateMovie (decode : Decoder) (movies : List Movie) (id body : String) :
    List Movie × Response Movie :=
  match updateMovie.loop decode id body movies 0 movies with
  | some (movies, movie) => (movies, ⟨"application/json", statusOK, movie⟩)
  | none => (movies, ⟨"application/json", statusOK, Movie.zero⟩)

/-- The body of the round-trip test: an object with isbn `X`, title `T` and a
director `A` `B`. -/
def roundTripBody : String :=
  "\x7b\"isbn\":\"X\",\"title\":\"T\",\"director\":\x7b\"firstname\":\"A\",\"lastname\":\"B\"\x7d\x7d"

/-- A well-formed JSON object whose title is the number 5 instead of a string,
after the isbn `X`. -/
def numericTitleBody : String := "\x7b\"isbn\":\"X\",\"title\":5\x7d"

/-- A decoder that does what `encoding/json` does on three bodies.  On
`roundTripBody` it stores the three fields and reports no error.  On
`numericTitleBody` it stores the isbn, skips the ill-typed title and reports
the `UnmarshalTypeError`.  On the empty body it stores nothing and reports
`io.EOF`; this sample treats every other body like the empty one. -/
def sampleDecode : Decoder := fun body movie =>
  if body = roundTripBody then
    ({ movie with Isbn := "X", Title := "T", Director := some ⟨"A", "B"⟩ }, false)
  else if body = numericTitleBody then
    ({ movie with Isbn := "X" }, true)
  else
    (movie, true)

/-! ## The loops as list operations -/

/-- The splice `append(movies[:index], movies[index+1:]...)` at the position
just after `pre` removes exactly the element standing there. -/
theorem splice_after (pre : List Movie) (item : Movie) (rest : List Movie) :
    (pre ++ item :: rest).take pre.length ++ (pre ++ item :: rest).drop (pre.length + 1)
      = pre ++ rest := by
  have h1 : (pre ++ item :: rest).take pre.length = pre := by simp
  have h2 : (pre ++ item :: rest).drop (pre.length + 1) = rest := by
    rw [← List.drop_drop]
    simp
  rw [h1, h2]

/-- The delete loop, started after a visited prefix `pre`, erases the first
record of the unvisited part whose id matches. -/
theorem deleteMovie_loop_erases (id : String) : ∀ (rest pre : List Movie),
    deleteMovie.loop id (pre ++ rest) pre.length rest
      = pre ++ rest.eraseP (fun m => decide (m.ID = id))
  | [], pre => by simp [deleteMovie.loop]
  | item :: rest, pre => by
    unfold deleteMovie.loop
    by_cases h : item.ID = id
    · simp only [h, if_true, splice_after, List.eraseP_cons, decide_True, cond_true]
    · have ih := deleteMovie_loop_erases id rest (pre ++ [item])
      simp only [List.append_assoc, List.singleton_append, List.length_append,
        List.length_singleton] at ih
      simp [h, ih, List.eraseP_cons]

/-- The new collection of `deleteMovie` is the old one with the first match
erased. -/
theorem deleteMovie_state (movies : List Movie) (id : String) :
    (deleteMovie movies id).1 = movies.eraseP (fun m => decide (m.ID = id)) := by
  have h := deleteMovie_loop_erases id movies []
  simpa [deleteMovie] using h

/-- The get loop is a search for the first record with the id. -/
theorem getMovie_loop_find (id : String) : ∀ movies : List Movie,
    getMovie.loop id movies = movies.find? (fun m => decide (m.ID = id))
  | [] => rfl
  | item :: rest => by
    unfold getMovie.loop
    by_cases h : item.ID = id
    · simp [h]
    · simp [h, getMovie_loop_find id rest]

/-- The update loop finds nothing when no unvisited record has the id. -/
theorem updateMovie_loop_absent (decode : Decoder) (id body : String) (movies : List Movie) :
    ∀ (rest : List Movie) (index : Nat), (∀ m ∈ rest, m.ID ≠ id) →
      updateMovie.loop decode id body movies index rest = none
  | [], _, _ => rfl
  | item :: rest, index, h => by
    unfold updateMovie.loop
    have h0 : item.ID ≠ id := h item (List.mem_cons_self _ _)
    simp only [h0, if_false]
    exact updateMovie_loop_absent decode id body movies rest (index + 1)
      (fun m hm => h m (List.mem_cons_of_mem _ hm))

/-- The update loop, started after a visited prefix, splices out the first
match and appends the decoded record carrying the path id. -/
theorem updateMovie_loop_found (decode : Decoder) (id body : String) :
    ∀ (mid pre : List Movie) (old : Movie) (post : List Movie),
      (∀ m ∈ mid, m.ID ≠ id) → old.ID = id →
      updateMovie.loop decode id body (pre ++ (mid ++ old :: post)) pre.length
          (mid ++ old :: post)
        = some ((pre ++ mid ++ post) ++ [{ (decode body Movie.zero).1 with ID := id }],
                { (decode body Movie.zero).1 with ID := id })
  | [], pre, old, post, _, ho => by
    simp only [List.nil_append, List.append_nil]
    unfold updateMovie.loop
    simp only [ho, if_true, splice_after]
  | item :: mid, pre, old, post, h, ho => by
    have h0 : item.ID ≠ id := h item (List.mem_cons_self _ _)
    have ih := updateMovie_loop_found decode id body mid (pre ++ [item]) old post
      (fun m hm => h m (List.mem_cons_of_mem _ hm)) ho
    simp only [List.append_assoc, List.singleton_append, List.length_append,
      List.length_singleton] at ih
    simp only [List.cons_append]
    unfold updateMovie.loop
    simp only [h0, if_false]
    simpa using ih

/-- Every list either has no record with the id or splits at its first one. -/
theorem first_match_split (id : String) : ∀ movies : List Movie,
    (∀ m ∈ movies, m.ID ≠ id) ∨
      ∃ pre old post, movies = pre ++ old :: post ∧ (∀ p ∈ pre, p.ID ≠ id) ∧ old.ID = id
  | [] => Or.inl (by simp)
  | item :: rest => by
    by_cases h : item.ID = id
    · exact Or.inr ⟨[], item, rest, rfl, by simp, h⟩
    · rcases first_match_split id rest with hn | ⟨pre, old, post, he, hp, ho⟩
      · left
        intro m hm
        rcases List.mem_cons.1 hm with rfl | hm
        · exact h
        · exact hn m hm
      · right
        refine ⟨item :: pre, old, post, by simp [he], ?_, ho⟩
        intro p hp2
        rcases List.mem_cons.1 hp2 with rfl | hp2
        · exact h
        · exact hp p hp2

/-- Erasing the first match from a list split at its first match. -/
theorem eraseP_split (id : String) (pre : List Movie) (old : Movie) (post : List Movie)
    (hp : ∀ p ∈ pre, p.ID ≠ id) (ho : old.ID = id) :
    (pre ++ old :: post).eraseP (fun m => decide (m.ID = id)) = pre ++ post := by
  rw [List.eraseP_append_right _ (by simpa using hp)]
  simp [List.eraseP_cons, ho]

/-- Decimal rendering never gives the empty list of digits. -/
theorem toDigitsCore_ne_nil (b : Nat) : ∀ (fuel n : Nat) (ds : List Char),
    (0 < fuel ∨ ds ≠ []) → Nat.toDigitsCore b fuel n ds ≠ []
  | 0, n, ds, h => by
    rcases h with h | h
    · omega
    · simpa [Nat.toDigitsCore] using h
  | fuel + 1, n, ds, _ => by
    unfold Nat.toDigitsCore
    simp only
    split
    · simp
    · exact toDigitsCore_ne_nil b fuel _ _ (Or.inr (by simp))

/-- The rendered id is never the empty string. -/
theorem Itoa_ne_empty (i : Nat) : Itoa i ≠ "" := by
  intro h
  have h1 : (Nat.toDigits 10 i) = [] := by
    have := congrArg String.data h
    simpa [Itoa, Nat.repr, List.asString] using this
  exact toDigitsCore_ne_nil 10 (i + 1) i [] (Or.inl (Nat.succ_pos _)) h1

/-- With no record of the id, `updateMovie` leaves the collection alone and
encodes `&Movie{}`. -/
theorem updateMovie_absent (decode : Decoder) (movies : List Movie) (id body : String)
    (h : ∀ m ∈ movies, m.ID ≠ id) :
    updateMovie decode movies id body
      = (movies, ⟨"application/json", statusOK, Movie.zero⟩) := by
  unfold updateMovie
  rw [updateMovie_loop_absent decode id body movies movies 0 h]

/-- On a collection split at the first record of the id, `updateMovie` drops
that record and appends the decoded one under the path id. -/
theorem updateMovie_found (decode : Decoder) (id body : String)
    (pre : List Movie) (old : Movie) (post : List Movie)
    (hp : ∀ p ∈ pre, p.ID ≠ id) (ho : old.ID = id) :
    updateMovie decode (pre ++ old :: post) id body
      = ((pre ++ post) ++ [{ (decode body Movie.zero).1 with ID := id }],
          ⟨"application/json", statusOK, { (decode body Movie.zero).1 with ID := id }⟩) := by
  have h := updateMovie_loop_found decode id body pre [] old post hp ho
  simp only [List.nil_append, List.length_nil] at h
  unfold updateMovie
  rw [h]

/-- With no record of the id, the get loop runs to its end. -/
theorem getMovie_loop_absent (id : String) (movies : List Movie)
    (h : ∀ m ∈ movies, m.ID ≠ id) : getMovie.loop id movies = none := by
  rw [getMovie_loop_find]
  simpa using h

/-- On a collection split at the first record of the id, the get loop stops at
that record. -/
theorem getMovie_loop_found (id : String) (pre : List Movie) (old : Movie) (post : List Movie)
    (hp : ∀ p ∈ pre, p.ID ≠ id) (ho : old.ID = id) :
    getMovie.loop id (pre ++ old :: post) = some old := by
  induction pre with
  | nil => simp [getMovie.loop, ho]
  | cons item pre ih =>
    have h0 : item.ID ≠ id := hp item (List.mem_cons_self _ _)
    have ih2 := ih (fun p hp2 => hp p (List.mem_cons_of_mem _ hp2))
    simp only [List.cons_append]
    unfold getMovie.loop
    simp only [h0, if_false]
    exact ih2

/-- With no record of the id, `getMovie` encodes `&Movie{}`. -/
theorem getMovie_absent (movies : List Movie) (id : String) (h : ∀ m ∈ movies, m.ID ≠ id) :
    getMovie movies id = (movies, ⟨"application/json", statusOK, Movie.zero⟩) := by
  unfold getMovie
  rw [getMovie_loop_absent id movies h]

/-- On a collection split at the first record of the id, `getMovie` encodes
that record. -/
theorem getMovie_found (id : String) (pre : List Movie) (old : Movie) (post : List Movie)
    (hp : ∀ p ∈ pre, p.ID ≠ id) (ho : old.ID = id) :
    getMovie (pre ++ old :: post) id
      = (pre ++ old :: post, ⟨"application/json", statusOK, old⟩) := by
  unfold getMovie
  rw [getMovie_loop_found id pre old post hp ho]

/-- In a collection with pairwise distinct ids, split at a record of id `id`, no
other record has that id. -/
theorem nodup_split (id : String) (pre : List Movie) (old : Movie) (post : List Movie)
    (ho : old.ID = id) (hnd : ((pre ++ old :: post).map Movie.ID).Nodup) :
    (∀ m ∈ pre ++ post, m.ID ≠ id) ∧ ((pre ++ post).map Movie.ID).Nodup := by
  have hperm : ((pre ++ old :: post).map Movie.ID).Perm (id :: (pre ++ post).map Movie.ID) := by
    rw [← ho]
    simp
  have h2 := (hperm.nodup_iff).1 hnd
  rw [List.nodup_cons] at h2
  refine ⟨?_, h2.2⟩
  intro m hm hid
  exact h2.1 (hid ▸ List.mem_map_of_mem Movie.ID hm)

/-! ## The claims -/

/-- C1, as amended: for every collection in which no record has the rendered
draw as its id, and every body that decodes to isbn `i`, title `t` and director
`d`, `createMovie` returns a Movie whose id is the rendered draw, a non-empty
string, and `getMovie` with that id on the resulting collection returns the
Movie with that id and the same isbn, title and director. -/
theorem createMovie_getMovie_roundtrip (decode : Decoder) (movies : List Movie)
    (body : String) (r : Nat) (i t : String) (d : Option Director)
    (hi : (decode body Movie.zero).1.Isbn = i) (ht : (decode body Movie.zero).1.Title = t)
    (hd : (decode body Movie.zero).1.Director = d)
    (hfresh : ∀ m ∈ movies, m.ID ≠ Itoa r) :
    (createMovie decode movies body r).2.body.ID = Itoa r ∧ Itoa r ≠ "" ∧
    (getMovie (createMovie decode movies body r).1
        (createMovie decode movies body r).2.body.ID).2.body = ⟨Itoa r, i, t, d⟩ := by
  refine ⟨rfl, Itoa_ne_empty r, ?_⟩
  have hg := getMovie_found (Itoa r) movies
    { (decode body Movie.zero).1 with ID := Itoa r } [] hfresh rfl
  simp only [createMovie, hg]
  rw [← hi, ← ht, ← hd]

/-- Witness of C1 as amended: the round-trip body posted to the seeded
collection with draw 7. -/
theorem createMovie_getMovie_roundtrip_witness :
    (createMovie sampleDecode main roundTripBody 7).2.body.ID = Itoa 7 ∧ Itoa 7 ≠ "" ∧
    (getMovie (createMovie sampleDecode main roundTripBody 7).1
        (createMovie sampleDecode main roundTripBody 7).2.body.ID).2.body
      = ⟨Itoa 7, "X", "T", some ⟨"A", "B"⟩⟩ :=
  createMovie_getMovie_roundtrip sampleDecode main roundTripBody 7 "X" "T" (some ⟨"A", "B"⟩)
    (by decide) (by decide) (by decide) (by decide)

/-- C1 as stated fails: on the seeded collection the draw 1 renders to the id
of the first seed record, so after creating the round-trip Movie under id `1`
the lookup of `1` returns the seed record, with another isbn, title and
director. -/
theorem createMovie_getMovie_collision :
    sampleDecode roundTripBody Movie.zero = (⟨"", "X", "T", some ⟨"A", "B"⟩⟩, false) ∧
    (createMovie sampleDecode main roundTripBody 1).2.body
      = ⟨"1", "X", "T", some ⟨"A", "B"⟩⟩ ∧
    (getMovie (createMovie sampleDecode main roundTripBody 1).1 "1").2.body
      = ⟨"1", "438227", "Movie One", some ⟨"John", "Doe"⟩⟩ := by
  decide

/-- C2: in a collection with pairwise distinct ids that holds a record of id
`x`, `deleteMovie` with `x` leaves one record fewer and none with id `x`, and a
second `deleteMovie` with `x` leaves that collection as it is. -/
theorem deleteMovie_removes_exactly_one (movies : List Movie) (x : String)
    (hnd : (movies.map Movie.ID).Nodup) (hx : ∃ m ∈ movies, m.ID = x) :
    0 < movies.length ∧
    (deleteMovie movies x).1.length = movies.length - 1 ∧
    (∀ m ∈ (deleteMovie movies x).1, m.ID ≠ x) ∧
    (deleteMovie (deleteMovie movies x).1 x).1 = (deleteMovie movies x).1 := by
  rcases first_match_split x movies with hn | ⟨pre, old, post, he, hp, ho⟩
  · obtain ⟨m, hm, hid⟩ := hx
    exact absurd hid (hn m hm)
  · subst he
    have hs := nodup_split x pre old post ho hnd
    have h1 : (deleteMovie (pre ++ old :: post) x).1 = pre ++ post := by
      rw [deleteMovie_state, eraseP_split x pre old post hp ho]
    rw [h1, deleteMovie_state]
    refine ⟨by simp, by simp, hs.1, ?_⟩
    exact List.eraseP_of_forall_not (fun m hm => by simpa using hs.1 m hm)

/-- Witness of C2: deleting id `1` from the seeded collection. -/
theorem deleteMovie_removes_exactly_one_witness :
    0 < main.length ∧
    (deleteMovie main "1").1.length = main.length - 1 ∧
    (∀ m ∈ (deleteMovie main "1").1, m.ID ≠ "1") ∧
    (deleteMovie (deleteMovie main "1").1 "1").1 = (deleteMovie main "1").1 :=
  deleteMovie_removes_exactly_one main "1" (by decide) (by decide)

/-- C3: on a collection that holds a record of id `x`, `updateMovie` with `x`
keeps the length, puts last a record with id `x` and the isbn, title and
director of the decoded body, keeps before it the original collection without
its first record of id `x`, in order, and returns that last record. -/
theorem updateMovie_moves_to_end (decode : Decoder) (movies : List Movie) (x body : String)
    (hx : ∃ m ∈ movies, m.ID = x) :
    ∃ pre old post, movies = pre ++ old :: post ∧ (∀ p ∈ pre, p.ID ≠ x) ∧ old.ID = x ∧
      (updateMovie decode movies x body).1
        = (pre ++ post) ++ [⟨x, (decode body Movie.zero).1.Isbn,
            (decode body Movie.zero).1.Title, (decode body Movie.zero).1.Director⟩] ∧
      (updateMovie decode movies x body).1.length = movies.length ∧
      (updateMovie decode movies x body).1.getLast?
        = some ⟨x, (decode body Movie.zero).1.Isbn,
            (decode body Movie.zero).1.Title, (decode body Movie.zero).1.Director⟩ ∧
      (updateMovie decode movies x body).1.dropLast = pre ++ post ∧
      (updateMovie decode movies x body).2.body
        = ⟨x, (decode body Movie.zero).1.Isbn,
            (decode body Movie.zero).1.Title, (decode body Movie.zero).1.Director⟩ := by
  rcases first_match_split x movies with hn | ⟨pre, old, post, he, hp, ho⟩
  · obtain ⟨m, hm, hid⟩ := hx
    exact absurd hid (hn m hm)
  · subst he
    refine ⟨pre, old, post, rfl, hp, ho, ?_⟩
    rw [updateMovie_found decode x body pre old post hp ho]
    refine ⟨rfl, by simp, by simp, by simp, rfl⟩

/-- Witness of C3: the round-trip body put to id `1` of the seeded
collection. -/
theorem updateMovie_moves_to_end_witness :
    ∃ pre old post, main = pre ++ old :: post ∧ (∀ p ∈ pre, p.ID ≠ "1") ∧ old.ID = "1" ∧
      (updateMovie sampleDecode main "1" roundTripBody).1
        = (pre ++ post) ++ [⟨"1", (sampleDecode roundTripBody Movie.zero).1.Isbn,
            (sampleDecode roundTripBody Movie.zero).1.Title,
            (sampleDecode roundTripBody Movie.zero).1.Director⟩] ∧
      (updateMovie sampleDecode main "1" roundTripBody).1.length = main.length ∧
      (updateMovie sampleDecode main "1" roundTripBody).1.getLast?
        = some ⟨"1", (sampleDecode roundTripBody Movie.zero).1.Isbn,
            (sampleDecode roundTripBody Movie.zero).1.Title,
            (sampleDecode roundTripBody Movie.zero).1.Director⟩ ∧
      (updateMovie sampleDecode main "1" roundTripBody).1.dropLast = pre ++ post ∧
      (updateMovie sampleDecode main "1" roundTripBody).2.body
        = ⟨"1", (sampleDecode roundTripBody Movie.zero).1.Isbn,
            (sampleDecode roundTripBody Movie.zero).1.Title,
            (sampleDecode roundTripBody Movie.zero).1.Director⟩ :=
  updateMovie_moves_to_end sampleDecode main "1" roundTripBody (by decide)

/-- C4: `getMovie` answers with status 200 in every case; when some record has
id `x` its body is the first such record in collection order, and when none
has, its body is the empty Movie (empty id, isbn and title, no director). -/
theorem getMovie_first_match_or_zero (movies : List Movie) (x : String) :
    (getMovie movies x).2.status = 200 ∧
    ((∃ pre item post, movies = pre ++ item :: post ∧ (∀ p ∈ pre, p.ID ≠ x) ∧ item.ID = x ∧
        (getMovie movies x).2.body = item) ∨
     ((∀ m ∈ movies, m.ID ≠ x) ∧ (getMovie movies x).2.body = ⟨"", "", "", none⟩)) := by
  rcases first_match_split x movies with hn | ⟨pre, old, post, he, hp, ho⟩
  · rw [getMovie_absent movies x hn]
    exact ⟨rfl, Or.inr ⟨hn, rfl⟩⟩
  · subst he
    rw [getMovie_found x pre old post hp ho]
    exact ⟨rfl, Or.inl ⟨pre, old, post, rfl, hp, ho, rfl⟩⟩

/-- C5: `deleteMovie` leaves the collection without its first record of id `x`
and with every other record in place, or unchanged when no record has id `x`;
in both cases the body of the response is the resulting collection. -/
theorem deleteMovie_first_match_only (movies : List Movie) (x : String) :
    (deleteMovie movies x).2.body = (deleteMovie movies x).1 ∧
    ((∃ pre item post, movies = pre ++ item :: post ∧ (∀ p ∈ pre, p.ID ≠ x) ∧ item.ID = x ∧
        (deleteMovie movies x).1 = pre ++ post) ∨
     ((∀ m ∈ movies, m.ID ≠ x) ∧ (deleteMovie movies x).1 = movies)) := by
  refine ⟨rfl, ?_⟩
  rcases first_match_split x movies with hn | ⟨pre, old, post, he, hp, ho⟩
  · right
    refine ⟨hn, ?_⟩
    rw [deleteMovie_state]
    exact List.eraseP_of_forall_not (fun m hm => by simpa using hn m hm)
  · subst he
    left
    refine ⟨pre, old, post, rfl, hp, ho, ?_⟩
    rw [deleteMovie_state, eraseP_split x pre old post hp ho]

/-- C6: `createMovie` leaves the original records, unchanged and in order,
followed by one new record whose id is the rendered draw (whatever id the
decoder stored) and whose isbn, title and director are those of the decoded
body; the body of the response is that record. -/
theorem createMovie_appends (decode : Decoder) (movies : List Movie) (body : String) (r : Nat) :
    (createMovie decode movies body r).1
      = movies ++ [⟨Itoa r, (decode body Movie.zero).1.Isbn,
          (decode body Movie.zero).1.Title, (decode body Movie.zero).1.Director⟩] ∧
    (createMovie decode movies body r).1.length = movies.length + 1 ∧
    (createMovie decode movies body r).1.take movies.length = movies ∧
    (createMovie decode movies body r).1.getLast?
      = some ⟨Itoa r, (decode body Movie.zero).1.Isbn,
          (decode body Movie.zero).1.Title, (decode body Movie.zero).1.Director⟩ ∧
    (createMovie decode movies body r).2.body
      = ⟨Itoa r, (decode body Movie.zero).1.Isbn,
          (decode body Movie.zero).1.Title, (decode body Movie.zero).1.Director⟩ := by
  refine ⟨rfl, ?_, ?_, ?_, rfl⟩ <;> simp [createMovie]

/-- C7: when no record has id `x`, `updateMovie` with `x` and any body answers
with status 200 and the empty Movie and leaves the collection as it was. -/
theorem updateMovie_missing_id (decode : Decoder) (movies : List Movie) (x body : String)
    (h : ∀ m ∈ movies, m.ID ≠ x) :
    (updateMovie decode movies x body).1 = movies ∧
    (updateMovie decode movies x body).2.body = ⟨"", "", "", none⟩ ∧
    (updateMovie decode movies x body).2.status = 200 := by
  rw [updateMovie_absent decode movies x body h]
  exact ⟨rfl, rfl, rfl⟩

/-- Witness of C7: the round-trip body put to the id `3`, which the seeded
collection does not hold. -/
theorem updateMovie_missing_id_witness :
    (updateMovie sampleDecode main "3" roundTripBody).1 = main ∧
    (updateMovie sampleDecode main "3" roundTripBody).2.body = ⟨"", "", "", none⟩ ∧
    (updateMovie sampleDecode main "3" roundTripBody).2.status = 200 :=
  updateMovie_missing_id sampleDecode main "3" roundTripBody (by decide)

/-- C8: `getMovie` never changes the collection, and when no record has id `x`
then after any number `k` of earlier `getMovie` calls with `x` the collection
is still the original one and the body of the next answer is the empty Movie
(empty id, isbn and title, no director). -/
theorem getMovie_absent_idempotent (movies : List Movie) (x : String)
    (h : ∀ m ∈ movies, m.ID ≠ x) (k : Nat) :
    (∀ (ms : List Movie) (y : String), (getMovie ms y).1 = ms) ∧
    (fun ms => (getMovie ms x).1)^[k] movies = movies ∧
    (getMovie ((fun ms => (getMovie ms x).1)^[k] movies) x).2.body = ⟨"", "", "", none⟩ := by
  have hframe : ∀ (ms : List Movie) (y : String), (getMovie ms y).1 = ms := by
    intro ms y
    unfold getMovie
    split <;> rfl
  have hiter : (fun ms => (getMovie ms x).1)^[k] movies = movies := by
    induction k with
    | zero => rfl
    | succ n ih => rw [Function.iterate_succ_apply, hframe, ih]
  refine ⟨hframe, hiter, ?_⟩
  rw [hiter, getMovie_absent movies x h]
  rfl

/-- Witness of C8: three lookups of an id the seeded collection does not
hold. -/
theorem getMovie_absent_idempotent_witness :
    (∀ (ms : List Movie) (y : String), (getMovie ms y).1 = ms) ∧
    (fun ms => (getMovie ms "does-not-exist").1)^[3] main = main ∧
    (getMovie ((fun ms => (getMovie ms "does-not-exist").1)^[3] main) "does-not-exist").2.body
      = ⟨"", "", "", none⟩ :=
  getMovie_absent_idempotent main "does-not-exist" (by decide) 3

/-- C9, as amended: whenever decoding the body fails, `createMovie` still
answers with status 200, appends exactly one record to the collection and
returns it; the record has the rendered draw (a non-empty string) as id and the
isbn, title and director that the decoder left in the fresh Movie variable.
When the decoder stored nothing, as for an empty body, these are the empty
isbn, the empty title and no director. -/
theorem createMovie_swallows_decode_error (decode : Decoder) (movies : List Movie)
    (body : String) (r : Nat) (herr : (decode body Movie.zero).2 = true) :
    (decode body Movie.zero).2 = true ∧
    (createMovie decode movies body r).2.status = 200 ∧
    (createMovie decode movies body r).1
      = movies ++ [⟨Itoa r, (decode body Movie.zero).1.Isbn,
          (decode body Movie.zero).1.Title, (decode body Movie.zero).1.Director⟩] ∧
    (createMovie decode movies body r).1.length = movies.length + 1 ∧
    (createMovie decode movies body r).2.body
      = ⟨Itoa r, (decode body Movie.zero).1.Isbn,
          (decode body Movie.zero).1.Title, (decode body Movie.zero).1.Director⟩ ∧
    Itoa r ≠ "" ∧
    ((decode body Movie.zero).1 = Movie.zero →
      (createMovie decode movies body r).1 = movies ++ [⟨Itoa r, "", "", none⟩] ∧
      (createMovie decode movies body r).2.body = ⟨Itoa r, "", "", none⟩) := by
  refine ⟨herr, rfl, rfl, by simp [createMovie], rfl, Itoa_ne_empty r, ?_⟩
  intro hz
  constructor <;> simp only [createMovie, hz] <;> rfl

/-- Witness of C9 as amended: the empty body posted to the seeded collection
with draw 7; decoding fails with nothing stored. -/
theorem createMovie_swallows_decode_error_witness :
    (sampleDecode "" Movie.zero).2 = true ∧
    (createMovie sampleDecode main "" 7).2.status = 200 ∧
    (createMovie sampleDecode main "" 7).1
      = main ++ [⟨Itoa 7, (sampleDecode "" Movie.zero).1.Isbn,
          (sampleDecode "" Movie.zero).1.Title, (sampleDecode "" Movie.zero).1.Director⟩] ∧
    (createMovie sampleDecode main "" 7).1.length = main.length + 1 ∧
    (createMovie sampleDecode main "" 7).2.body
      = ⟨Itoa 7, (sampleDecode "" Movie.zero).1.Isbn,
          (sampleDecode "" Movie.zero).1.Title, (sampleDecode "" Movie.zero).1.Director⟩ ∧
    Itoa 7 ≠ "" ∧
    ((sampleDecode "" Movie.zero).1 = Movie.zero →
      (createMovie sampleDecode main "" 7).1 = main ++ [⟨Itoa 7, "", "", none⟩] ∧
      (createMovie sampleDecode main "" 7).2.body = ⟨Itoa 7, "", "", none⟩) :=
  createMovie_swallows_decode_error sampleDecode main "" 7 (by decide)

/-- C9 as stated fails: the body whose title is a number fails to decode, yet
the isbn stored before the error stays in the record that `createMovie`
appends and returns; so a failed decode does not always give empty fields. -/
theorem createMovie_keeps_stored_fields :
    (sampleDecode numericTitleBody Movie.zero).2 = true ∧
    (createMovie sampleDecode main numericTitleBody 7).2.body = ⟨"7", "X", "", none⟩ ∧
    (createMovie sampleDecode main numericTitleBody 7).1.getLast? = some ⟨"7", "X", "", none⟩ ∧
    ¬ (∀ (decode : Decoder) (movies : List Movie) (body : String) (r : Nat),
        (decode body Movie.zero).2 = true →
        (createMovie decode movies body r).2.body = ⟨Itoa r, "", "", none⟩) := by
  refine ⟨by decide, by decide, by decide, ?_⟩
  intro hall
  exact absurd (hall sampleDecode main numericTitleBody 7 (by decide)) (by decide)

/-- C10: when the ids of the collection are pairwise distinct, they are still
pairwise distinct after `deleteMovie` with any id and after `updateMovie` with
any id and any body. -/
theorem deleteMovie_updateMovie_preserve_nodup (decode : Decoder) (movies : List Movie)
    (x body : String) (hnd : (movies.map Movie.ID).Nodup) :
    ((deleteMovie movies x).1.map Movie.ID).Nodup ∧
    ((updateMovie decode movies x body).1.map Movie.ID).Nodup := by
  rcases first_match_split x movies with hn | ⟨pre, old, post, he, hp, ho⟩
  · rw [updateMovie_absent decode movies x body hn, deleteMovie_state,
      List.eraseP_of_forall_not (fun m hm => by simpa using hn m hm)]
    exact ⟨hnd, hnd⟩
  · subst he
    have hs := nodup_split x pre old post ho hnd
    rw [updateMovie_found decode x body pre old post hp ho, deleteMovie_state,
      eraseP_split x pre old post hp ho]
    refine ⟨hs.2, ?_⟩
    have hperm : (((pre ++ post) ++ [{ (decode body Movie.zero).1 with ID := x }]).map
        Movie.ID).Perm (x :: (pre ++ post).map Movie.ID) := by
      rw [List.map_append]
      exact List.perm_append_singleton _ _
    rw [hperm.nodup_iff, List.nodup_cons]
    refine ⟨?_, hs.2⟩
    intro hmem
    obtain ⟨m, hm, hid⟩ := List.mem_map.1 hmem
    exact hs.1 m hm hid

/-- Witness of C10: deleting and updating id `1` of the seeded collection, the
update carrying the round-trip body. -/
theorem deleteMovie_updateMovie_preserve_nodup_witness :
    ((deleteMovie main "1").1.map Movie.ID).Nodup ∧
    ((updateMovie sampleDecode main "1" roundTripBody).1.map Movie.ID).Nodup :=
  deleteMovie_updateMovie_preserve_nodup sampleDecode main "1" roundTripBody (by decide)

end GoMoviesCrud
